import Mathlib

/-!
Verification development for the sequential Nuzlocke gauntlet environment
(`nuzlocke_gauntlet_rl`).  The definitions below are a shallow embedding of
the gauntlet state machine in `envs/nuzlocke_env.py`, the data model in
`utils/specs.py`, the linear gauntlet graph built by
`data/parsers.build_gauntlet_graph`, and the move-id table of
`utils/moveset_generator.py`.

Modelling conventions:
* Python object aliasing between `self.roster` and `self.party` is made
  explicit: the roster is the heap (a `List MonInstance`) and the party is a
  list of roster indices, so the in-place mutations of party members
  (`m.spec.level = ...`, `self.party[i].alive = False`,
  `self.build_current_mon.spec.moves = ...`) are roster updates.
* Pydantic `BaseModel` equality is structural, so the membership test
  `mon not in self.party` compares field values; it is embedded as structural
  equality of the referenced instances.
* `build_gauntlet_graph` turns `gauntlet_template.trainers` into a linear
  chain of nodes, node `i` carrying `data = (trainer i, trainer_idx i)`; the
  graph is embedded as the chain position `node_idx` over the trainers list,
  with `chainSuccessors` as `get_successors`.
* Machine-external effects (the battle simulator result, the random
  route-unlock encounter rolls, the starter table lookup) are supplied by an
  `Oracle` record, mirroring the spec treating the simulator as an opaque
  collaborator.
* `TrainerSpec` (specs.py lines 74-77) declares only `name` and `team`; the
  extra keyword `level_cap=cap` passed in `load_complete_gauntlet` is ignored
  by pydantic, and the two assignments to `self.current_trainer_idx` are
  commented out.  Reading either attribute therefore raises
  `AttributeError`; the faithful `step`/`runBattle` return `Except PyErr`.
  `runBattleCore` is the translation of the battle-resolution body
  (nuzlocke_env.py lines 302-388) with the values of those two dead attribute
  reads supplied as parameters, so the post-read logic can be analysed.
* Rewards are embedded as rationals; the reward literals of the source are
  exactly representable relations so no floating-point subtlety is involved
  in the claims proved here.
-/

/-- A Python exception escaping a `step` call. -/
inductive PyErr where
  | attributeError (attr : String)
deriving DecidableEq

/-- `PokemonSpec` from utils/specs.py (static template: species, level,
moves, ability, item, nature; the `evs`/`ivs` dict fields are empty for every
instance the environment ever constructs and are omitted). -/
structure PokemonSpec where
  species : String
  level : Nat
  moves : List String
  ability : Option String
  item : Option String
  nature : Option String
deriving DecidableEq

/-- `MonInstance` from utils/specs.py: a runtime instance owned by the
roster. -/
structure MonInstance where
  id : String
  spec : PokemonSpec
  current_hp : Int
  alive : Bool
  status : Option String
  in_party : Bool
deriving DecidableEq

/-- `TrainerSpec` from utils/specs.py lines 74-77.  Note: it declares only
`name` and `team`; there is no `level_cap` field (the `level_cap=cap`
keyword passed by `load_complete_gauntlet` is silently dropped by
pydantic). -/
structure TrainerSpec where
  name : String
  team : List PokemonSpec
deriving DecidableEq

/-- `GauntletSpec` from utils/specs.py: a sequence of trainers. -/
structure GauntletSpec where
  trainers : List TrainerSpec
deriving DecidableEq

/-- Reading `trainer.level_cap` (nuzlocke_env.py line 304).  `TrainerSpec`
has no `level_cap` field, so the attribute read raises `AttributeError`. -/
def TrainerSpec.read_level_cap (_ : TrainerSpec) : Except PyErr Nat :=
  .error (.attributeError "level_cap")

/-- The move-id table of `MovesetGenerator` (utils/moveset_generator.py):
`move_to_id` maps the sorted move list to ids starting at 1; id 0 is
reserved/empty. -/
structure MovesetGen where
  all_moves_list : List String
deriving DecidableEq

/-- `MovesetGenerator.get_move_name` (moveset_generator.py lines 28-29):
`id_to_move_map.get(move_id, None)`, whose keys are `1..max_move_id`, so id 0
(and any id past the table) yields `None`. -/
def MovesetGen.get_move_name (g : MovesetGen) (move_id : Nat) : Option String :=
  if move_id = 0 then none else g.all_moves_list.get? (move_id - 1)

/-- The placeholder instance used to totalise roster dereferencing; real runs
only ever index the roster in bounds. -/
def dummyMon : MonInstance :=
  { id := ""
    spec := { species := "", level := 0, moves := [], ability := none,
              item := none, nature := none }
    current_hp := 0, alive := false, status := none, in_party := false }

/-- Phase tag `PHASE_DECISION` of `NuzlockeGauntletEnv`. -/
def PHASE_DECISION : Nat := 0

/-- Phase tag `PHASE_SELECT_STARTER` of `NuzlockeGauntletEnv`. -/
def PHASE_SELECT_STARTER : Nat := 3

/-- Phase tag `PHASE_STRATEGIST` of `NuzlockeGauntletEnv`. -/
def PHASE_STRATEGIST : Nat := 4

/-- Phase tag `PHASE_BUILD_SPECIES` of `NuzlockeGauntletEnv`. -/
def PHASE_BUILD_SPECIES : Nat := 5

/-- Phase tag `PHASE_BUILD_MOVE` of `NuzlockeGauntletEnv`. -/
def PHASE_BUILD_MOVE : Nat := 6

/-- Phase tag `PHASE_BUILD_ITEM` of `NuzlockeGauntletEnv`. -/
def PHASE_BUILD_ITEM : Nat := 7

/-- The mutable environment state of `NuzlockeGauntletEnv`.  `trainers` is
`gauntlet_template.trainers` (fixed after construction); `node_idx` is the
chain position of `current_node_id`; `party` holds roster indices (Python
holds references to the same objects). -/
structure EnvState where
  trainers : List TrainerSpec
  roster : List MonInstance
  node_idx : Nat
  party : List Nat
  rebuild_count : Nat
  build_current_mon : Option Nat
  build_current_moves : List String
  current_party_slot : Nat
  current_move_slot : Nat
  phase : Nat
deriving DecidableEq

/-- Reading `self.current_trainer_idx` (nuzlocke_env.py line 337).  Both
assignments (lines 134 and 152) are commented out `# DEPRECATED`, so the
attribute is never set and the read raises `AttributeError`. -/
def EnvState.read_current_trainer_idx (_ : EnvState) : Except PyErr Nat :=
  .error (.attributeError "current_trainer_idx")

/-- External inputs of one step: the simulator verdict
(`win`, `survivors`), the instances added by the route-unlock encounter
rolls on a win (`captured`), the starter returned by
`mechanics.get_starter_choice` (`starter`, always an instance), and the
values `cap`/`tidx` that the two uninitialised attribute reads of
`_run_battle` would have to produce for its body to run (see
`runBattleCore`). -/
structure Oracle where
  win : Bool
  survivors : List Bool
  captured : List MonInstance
  starter : MonInstance
  cap : Option Nat
  tidx : Nat
deriving DecidableEq

/-- In-place update of one list cell (the shallow embedding of mutating a
Python object reachable from a list). -/
def listUpdate {α : Type} (l : List α) (n : Nat) (f : α → α) : List α :=
  match l, n with
  | [], _ => []
  | a :: t, 0 => f a :: t
  | a :: t, Nat.succ m => a :: listUpdate t m f

/-- `max(p.level for p in team)` (nuzlocke_env.py line 307), as a fold. -/
def teamMaxLevel (team : List PokemonSpec) : Nat :=
  team.foldl (fun acc p => max acc p.level) 0

/-- Level-scaling target (nuzlocke_env.py lines 302-309): start at 5, take
the level cap when truthy, else the opposing team's max level when the team
is nonempty, then clamp to at least 5. -/
def targetLevel (cap : Option Nat) (team : List PokemonSpec) : Nat :=
  let t :=
    match cap with
    | some c => if c ≠ 0 then c else if team.isEmpty then 5 else teamMaxLevel team
    | none => if team.isEmpty then 5 else teamMaxLevel team
  max 5 t

/-- Ratchet leveling (nuzlocke_env.py lines 311-313):
`for m in self.party: m.spec.level = max(m.spec.level, target_level)` —
each party member is a roster reference, so this updates the roster. -/
def ratchet (roster : List MonInstance) (party : List Nat) (target : Nat) :
    List MonInstance :=
  party.foldl
    (fun r j =>
      listUpdate r j
        (fun m => { m with spec := { m.spec with level := max m.spec.level target } }))
    roster

/-- Death application (nuzlocke_env.py lines 320-325):
`for i, survived in enumerate(survivors): if i < len(self.party): if not
survived: self.party[i].alive = False; deaths += 1`.  Returns the updated
roster and the `deaths` counter. -/
def applyDeaths (roster : List MonInstance) :
    List Nat → List Bool → List MonInstance × Nat
  | _, [] => (roster, 0)
  | [], _ :: _ => (roster, 0)
  | j :: ps, survived :: ss =>
    if survived then applyDeaths roster ps ss
    else
      let r1 := listUpdate roster j (fun m => { m with alive := false })
      let (r2, d) := applyDeaths r1 ps ss
      (r2, d + 1)

/-- `GauntletMap.get_successors` on the chain produced by
`build_gauntlet_graph`: node `i` points to node `i+1` when it exists. -/
def chainSuccessors (n : Nat) (i : Nat) : List Nat :=
  if i + 1 < n then [i + 1] else []

/-- Fixed reward for a won battle (nuzlocke_env.py line 332). -/
def winReward : ℚ := 1

/-- Fixed reward for a lost battle (nuzlocke_env.py line 351). -/
def lossReward : ℚ := -1

/-- Per-death reward deduction coefficient (nuzlocke_env.py line 354). -/
def deathPenalty : ℚ := 1 / 10

/-- Bonus added on gauntlet completion (lines 348 and 377; the source adds
it in both places on the final win). -/
def victoryBonus : ℚ := 10

/-- Extra deduction when no roster member is left alive (line 359). -/
def wipePenalty : ℚ := 5

/-- Penalty for a second or later consecutive rebuild (line 221). -/
def rebuildPenalty : ℚ := -(1 / 2)

/-- Penalty for an in-range but invalid species pick (line 249). -/
def invalidPickPenalty : ℚ := -(1 / 100)

/-- Validity of a species pick (nuzlocke_env.py line 242):
`mon.alive and mon not in self.party`, with pydantic structural equality for
the membership test. -/
def pickOk (s : EnvState) (a : Nat) : Bool :=
  (s.roster.getD a dummyMon).alive &&
    s.party.all fun k =>
      decide (s.roster.getD k dummyMon ≠ s.roster.getD a dummyMon)

/-- The battle-resolution body of `_run_battle` (nuzlocke_env.py lines
294-388) given the values `cap` and `tidx` of the two uninitialised
attribute reads (`current_trainer.level_cap`, `self.current_trainer_idx`):
node lookup, level-scaling ratchet, survivor application, reward
composition, termination flags, and chain advancement.  The route-unlock
block's encounter rolls are supplied as `o.captured` (appended to the
roster on a win, before the roster-wipe check). -/
def runBattleCore (cap : Option Nat) (tidx : Nat) (o : Oracle) (s : EnvState) :
    EnvState × ℚ × Bool × Bool :=
  match s.trainers.get? s.node_idx with
  | none => (s, 0, true, false)
  | some tr =>
    let tl := targetLevel cap tr.team
    let roster1 := ratchet s.roster s.party tl
    let dres := applyDeaths roster1 s.party o.survivors
    let deaths : Nat := dres.2
    let roster3 := if o.win then dres.1 ++ o.captured else dres.1
    let rebuild1 := if o.win then 0 else s.rebuild_count
    let idxExhausted : Bool := o.win && decide (s.trainers.length ≤ tidx + 1)
    let reward1 : ℚ :=
      (if o.win then winReward else lossReward) +
        (if idxExhausted then victoryBonus else 0)
    let term1 : Bool := !o.win || idxExhausted
    let reward2 : ℚ := reward1 - (deaths : ℚ) * deathPenalty
    let wiped : Bool := !roster3.any (fun m => m.alive)
    let reward3 : ℚ := if wiped then reward2 - wipePenalty else reward2
    let term2 : Bool := term1 || wiped
    let phase1 : Nat := if term2 then s.phase else PHASE_DECISION
    if o.win then
      if s.node_idx + 1 < s.trainers.length then
        ({ s with roster := roster3, rebuild_count := rebuild1,
                  node_idx := s.node_idx + 1, phase := PHASE_STRATEGIST },
         reward3, term2, false)
      else
        ({ s with roster := roster3, rebuild_count := rebuild1, phase := phase1 },
         reward3 + victoryBonus, true, false)
    else
      ({ s with roster := roster3, rebuild_count := rebuild1, phase := phase1 },
       reward3, true, false)

/-- The faithful `_run_battle` (nuzlocke_env.py lines 294-388): after the
node/trainer lookup it reads `current_trainer.level_cap`, which raises
`AttributeError` (no such field on `TrainerSpec`).  In the source the
`self.current_trainer_idx` read sits later, inside the win branch (line
337); hoisting it next to the first read is behaviour-equivalent because
the first read already raises on every path that reaches it. -/
def runBattle (o : Oracle) (s : EnvState) :
    Except PyErr (EnvState × ℚ × Bool × Bool) :=
  match s.trainers.get? s.node_idx with
  | none => .ok (s, 0, true, false)
  | some tr => do
    let cap ← tr.read_level_cap
    let tidx ← s.read_current_trainer_idx
    .ok (runBattleCore (some cap) tidx o s)

/-- `NuzlockeGauntletEnv.step` with the battle dispatch replaced by
`runBattleCore o.cap o.tidx` — the state machine as its body is written,
used to analyse the logic that sits beyond the raising attribute reads
(see `step` for the faithful exception-raising dispatch).  Returns
`(state, reward, terminated, truncated)`. -/
def stepCore (g : MovesetGen) (o : Oracle) (s : EnvState) (action : Nat) :
    EnvState × ℚ × Bool × Bool :=
  if s.phase = PHASE_SELECT_STARTER then
    ({ s with roster := s.roster ++ [o.starter], phase := PHASE_STRATEGIST },
     0, false, false)
  else if s.phase = PHASE_STRATEGIST then
    ({ s with phase := PHASE_DECISION }, 0, false, false)
  else if s.phase = PHASE_DECISION then
    if action = 1 then
      let reward : ℚ := if s.rebuild_count > 0 then rebuildPenalty else 0
      ({ s with rebuild_count := s.rebuild_count + 1,
                phase := PHASE_BUILD_SPECIES,
                current_party_slot := 0,
                party := [] },
       reward, false, false)
    else
      runBattleCore o.cap o.tidx o s
  else if s.phase = PHASE_BUILD_SPECIES then
    if action < s.roster.length then
      if pickOk s action then
        ({ s with build_current_mon := some action,
                  build_current_moves := [],
                  current_move_slot := 0,
                  phase := PHASE_BUILD_MOVE },
         0, false, false)
      else
        (s, invalidPickPenalty, false, false)
    else
      (s, 0, false, false)
  else if s.phase = PHASE_BUILD_MOVE then
    match g.get_move_name action, s.build_current_mon with
    | some mname, some _ =>
      let moves1 := s.build_current_moves ++ [mname]
      let mslot1 := s.current_move_slot + 1
      if mslot1 ≥ 4 then
        ({ s with build_current_moves := moves1, current_move_slot := mslot1,
                  phase := PHASE_BUILD_ITEM },
         0, false, false)
      else
        ({ s with build_current_moves := moves1, current_move_slot := mslot1 },
         0, false, false)
    | _, _ => (s, 0, false, false)
  else if s.phase = PHASE_BUILD_ITEM then
    let s1 :=
      match s.build_current_mon with
      | some j =>
        { s with
            roster := listUpdate s.roster j
              (fun m =>
                { m with spec := { m.spec with moves := s.build_current_moves,
                                               item := none } })
            party := s.party ++ [j] }
      | none => s
    if s.current_party_slot + 1 ≥ 6 then
      ({ s1 with current_party_slot := s.current_party_slot + 1,
                 phase := PHASE_DECISION },
       0, false, false)
    else
      ({ s1 with current_party_slot := s.current_party_slot + 1,
                 phase := PHASE_BUILD_SPECIES },
       0, false, false)
  else
    (s, 0, false, false)

/-- The faithful `NuzlockeGauntletEnv.step`: identical to `stepCore` except
that the `DECISION`/fight branch performs the real `_run_battle` dispatch,
which raises (see `runBattle`).  Every other branch returns normally. -/
def step (g : MovesetGen) (o : Oracle) (s : EnvState) (action : Nat) :
    Except PyErr (EnvState × ℚ × Bool × Bool) :=
  if s.phase = PHASE_DECISION ∧ action ≠ 1 then runBattle o s
  else .ok (stepCore g o s action)

/-- `NuzlockeGauntletEnv.reset` (nuzlocke_env.py lines 150-173): back to the
start node, empty roster and party, rebuild counter zeroed, starter
selection phase. -/
def reset (s : EnvState) : EnvState :=
  { s with node_idx := 0, rebuild_count := 0, roster := [], party := [],
           phase := PHASE_SELECT_STARTER }

/-- Sample starter instance (shape of `get_starter_choice(1)`). -/
def monStarter : MonInstance :=
  { id := "starter-1"
    spec := { species := "Charmander", level := 5, moves := ["scratch", "growl"],
              ability := some "blaze", item := none, nature := none }
    current_hp := 100, alive := true, status := none, in_party := false }

/-- Sample roster member at level 4. -/
def monLvl4 : MonInstance :=
  { id := "m4"
    spec := { species := "Rattata", level := 4, moves := ["tackle"],
              ability := none, item := none, nature := none }
    current_hp := 100, alive := true, status := none, in_party := false }

/-- Sample dead roster member (a graveyard entry). -/
def monDead : MonInstance :=
  { id := "md"
    spec := { species := "Pidgey", level := 6, moves := ["gust"],
              ability := none, item := none, nature := none }
    current_hp := 0, alive := false, status := none, in_party := false }

/-- Sample opposing trainer (one level-9 team member). -/
def trainerW : TrainerSpec :=
  { name := "Brock Pewter Gym"
    team := [{ species := "Geodude", level := 9, moves := ["tackle"],
               ability := none, item := none, nature := none }] }

/-- Sample move table. -/
def genW : MovesetGen := { all_moves_list := ["growl", "scratch", "tackle"] }

/-- Sample oracle: a clean win with one survivor and no encounter roll. -/
def oracleW : Oracle :=
  { win := true, survivors := [true], captured := [], starter := monStarter,
    cap := some 3, tidx := 0 }

/-- Third alive sample member (for three-slot survivor vectors). -/
def monThird : MonInstance :=
  { id := "m3"
    spec := { species := "Spearow", level := 7, moves := ["peck"],
              ability := none, item := none, nature := none }
    current_hp := 70, alive := true, status := none, in_party := false }

/-- A one-trainer gauntlet state sitting in the DECISION phase with a
one-member party. -/
def sDecision : EnvState :=
  { trainers := [trainerW], roster := [monLvl4], node_idx := 0, party := [0],
    rebuild_count := 0, build_current_mon := none, build_current_moves := [],
    current_party_slot := 0, current_move_slot := 0, phase := PHASE_DECISION }

/-- A state in the BUILD_MOVE phase with a member in progress and no move
accumulated yet. -/
def sBuildMove : EnvState :=
  { trainers := [trainerW], roster := [monLvl4], node_idx := 0, party := [],
    rebuild_count := 1, build_current_mon := some 0, build_current_moves := [],
    current_party_slot := 0, current_move_slot := 0, phase := PHASE_BUILD_MOVE }

/-- A BUILD_SPECIES state whose alive-and-unselected pool is exhausted (the
only roster member is dead). -/
def sExhausted : EnvState :=
  { trainers := [trainerW], roster := [monDead], node_idx := 0, party := [],
    rebuild_count := 1, build_current_mon := none, build_current_moves := [],
    current_party_slot := 0, current_move_slot := 0, phase := PHASE_BUILD_SPECIES }

/-- A BUILD_ITEM state about to finalise the sixth member. -/
def sBuildItem : EnvState :=
  { trainers := [trainerW], roster := [monLvl4], node_idx := 0, party := [],
    rebuild_count := 1, build_current_mon := some 0, build_current_moves := ["tackle"],
    current_party_slot := 5, current_move_slot := 4, phase := PHASE_BUILD_ITEM }

/-- Sample three-member roster (all alive) for the survivors example. -/
def rosterThree : List MonInstance := [monLvl4, monStarter, monThird]

/-- The state invariant maintained by the party builder: party slots are
distinct in-bounds roster indices, the party never exceeds six members, the
slot counter bounds the party inside the build phases, and the member being
built is in bounds and not yet in the party. -/
def EnvInv (s : EnvState) : Prop :=
  s.party.Nodup ∧
  (∀ j ∈ s.party, j < s.roster.length) ∧
  s.party.length ≤ 6 ∧
  ((s.phase = PHASE_BUILD_SPECIES ∨ s.phase = PHASE_BUILD_MOVE ∨
      s.phase = PHASE_BUILD_ITEM) →
    s.party.length ≤ s.current_party_slot ∧ s.current_party_slot ≤ 5) ∧
  ((s.phase = PHASE_BUILD_MOVE ∨ s.phase = PHASE_BUILD_ITEM) →
    ∀ j, s.build_current_mon = some j → j < s.roster.length ∧ j ∉ s.party)

theorem listUpdate_length {α : Type} (l : List α) (n : Nat) (f : α → α) :
    (listUpdate l n f).length = l.length := by
  induction l generalizing n with
  | nil => rfl
  | cons a t ih =>
    cases n with
    | zero => rfl
    | succ m => simp only [listUpdate, List.length_cons, ih]

theorem getD_listUpdate_self {α : Type} (l : List α) (n : Nat) (f : α → α) (d : α)
    (h : n < l.length) : (listUpdate l n f).getD n d = f (l.getD n d) := by
  induction l generalizing n with
  | nil => simp at h
  | cons a t ih =>
    cases n with
    | zero => rfl
    | succ m =>
      simp only [listUpdate, List.getD_cons_succ]
      exact ih m (by simpa using h)

theorem getD_listUpdate_ne {α : Type} (l : List α) (n : Nat) (f : α → α) (d : α)
    (j : Nat) (hne : j ≠ n) : (listUpdate l n f).getD j d = l.getD j d := by
  induction l generalizing n j with
  | nil => rfl
  | cons a t ih =>
    cases n with
    | zero =>
      cases j with
      | zero => exact absurd rfl hne
      | succ i => rfl
    | succ m =>
      cases j with
      | zero => rfl
      | succ i =>
        simp only [listUpdate, List.getD_cons_succ]
        exact ih m i (fun hc => hne (by simp [hc]))

theorem getD_map {α β : Type} (l : List α) (f : α → β) (n : Nat) (d : α) :
    (l.map f).getD n (f d) = f (l.getD n d) := by
  induction l generalizing n with
  | nil => rfl
  | cons a t ih =>
    cases n with
    | zero => rfl
    | succ m => simp only [List.map_cons, List.getD_cons_succ]; exact ih m

theorem nodup_getD_ne {α : Type} (l : List α) (d : α) (j k : Nat)
    (h : l.Nodup) (hj : j < l.length) (hk : k < l.length) (hne : j ≠ k) :
    l.getD j d ≠ l.getD k d := by
  induction l generalizing j k with
  | nil => simp at hj
  | cons a t ih =>
    have hmem : ∀ i, i < t.length → t.getD i d ∈ t := by
      intro i hi
      rw [List.getD_eq_getElem?_getD, List.getElem?_eq_getElem hi]
      simp [List.getElem_mem]
    cases j with
    | zero =>
      cases k with
      | zero => exact absurd rfl hne
      | succ k1 =>
        simp only [List.getD_cons_zero, List.getD_cons_succ]
        intro hc
        exact (List.nodup_cons.mp h).1 (hc ▸ hmem k1 (by simpa using hk))
    | succ j1 =>
      cases k with
      | zero =>
        simp only [List.getD_cons_zero, List.getD_cons_succ]
        intro hc
        exact (List.nodup_cons.mp h).1 (hc ▸ hmem j1 (by simpa using hj))
      | succ k1 =>
        simp only [List.getD_cons_succ]
        exact ih j1 k1 (List.nodup_cons.mp h).2 (by simpa using hj)
          (by simpa using hk) (fun hc => hne (by simp [hc]))

theorem ratchet_nil (r : List MonInstance) (t : Nat) : ratchet r [] t = r := rfl

theorem ratchet_cons (r : List MonInstance) (q : Nat) (qs : List Nat) (t : Nat) :
    ratchet r (q :: qs) t =
      ratchet
        (listUpdate r q
          (fun m => { m with spec := { m.spec with level := max m.spec.level t } }))
        qs t := rfl

theorem ratchet_length (p : List Nat) (r : List MonInstance) (t : Nat) :
    (ratchet r p t).length = r.length := by
  induction p generalizing r with
  | nil => rfl
  | cons q qs ih => rw [ratchet_cons, ih, listUpdate_length]

theorem getD_ratchet_not_mem (p : List Nat) (r : List MonInstance) (t : Nat)
    (d : MonInstance) (j : Nat) (hj : j ∉ p) :
    (ratchet r p t).getD j d = r.getD j d := by
  induction p generalizing r with
  | nil => rfl
  | cons q qs ih =>
    rw [ratchet_cons, ih _ (fun h => hj (List.mem_cons_of_mem _ h)),
      getD_listUpdate_ne _ _ _ _ _
        (fun h => hj (by rw [h]; exact List.mem_cons_self _ _))]

theorem getD_ratchet_mem (p : List Nat) (r : List MonInstance) (t : Nat)
    (d : MonInstance) (j : Nat) (hjr : j < r.length) (hj : j ∈ p) :
    (ratchet r p t).getD j d =
      { r.getD j d with
          spec := { (r.getD j d).spec with
                      level := max (r.getD j d).spec.level t } } := by
  induction p generalizing r with
  | nil => simp at hj
  | cons q qs ih =>
    rw [ratchet_cons]
    by_cases hqs : j ∈ qs
    · have hlen : j < (listUpdate r q
          (fun m => { m with spec := { m.spec with level := max m.spec.level t } })).length := by
        rw [listUpdate_length]; exact hjr
      rw [ih _ hlen hqs]
      by_cases hq : j = q
      · subst hq
        rw [getD_listUpdate_self _ _ _ _ hjr]
        simp [max_assoc]
      · rw [getD_listUpdate_ne _ _ _ _ _ hq]
    · have hq : j = q := by
        rcases List.mem_cons.mp hj with h | h
        · exact h
        · exact absurd h hqs
      subst hq
      rw [getD_ratchet_not_mem _ _ _ _ _ hqs, getD_listUpdate_self _ _ _ _ hjr]

theorem getD_ratchet_level_ge (p : List Nat) (r : List MonInstance) (t : Nat)
    (d : MonInstance) (j : Nat) :
    (r.getD j d).spec.level ≤ ((ratchet r p t).getD j d).spec.level := by
  induction p generalizing r with
  | nil => exact le_refl _
  | cons q qs ih =>
    rw [ratchet_cons]
    refine le_trans ?_ (ih _)
    by_cases hq : j = q
    · subst hq
      by_cases hlen : j < r.length
      · rw [getD_listUpdate_self _ _ _ _ hlen]
        exact le_max_left _ _
      · have h1 : r.getD j d = d := List.getD_eq_default _ _ (Nat.le_of_not_lt hlen)
        have h2 : (listUpdate r j
            (fun m => { m with spec := { m.spec with level := max m.spec.level t } })).getD j d = d := by
          refine List.getD_eq_default _ _ ?_
          rw [listUpdate_length]; exact Nat.le_of_not_lt hlen
        rw [h1, h2]
    · rw [getD_listUpdate_ne _ _ _ _ _ hq]

theorem getD_ratchet_alive (p : List Nat) (r : List MonInstance) (t : Nat)
    (d : MonInstance) (j : Nat) :
    ((ratchet r p t).getD j d).alive = (r.getD j d).alive := by
  induction p generalizing r with
  | nil => rfl
  | cons q qs ih =>
    rw [ratchet_cons, ih]
    by_cases hq : j = q
    · subst hq
      by_cases hlen : j < r.length
      · rw [getD_listUpdate_self _ _ _ _ hlen]
      · rw [List.getD_eq_default _ _ (Nat.le_of_not_lt hlen),
          List.getD_eq_default _ _ (by rw [listUpdate_length]; exact Nat.le_of_not_lt hlen)]
    · rw [getD_listUpdate_ne _ _ _ _ _ hq]

theorem applyDeaths_nil_s (r : List MonInstance) (p : List Nat) :
    applyDeaths r p [] = (r, 0) := by
  cases p <;> rfl

theorem applyDeaths_nil_p (r : List MonInstance) (b : Bool) (ss : List Bool) :
    applyDeaths r [] (b :: ss) = (r, 0) := rfl

theorem applyDeaths_cons_true (r : List MonInstance) (j : Nat) (ps : List Nat)
    (ss : List Bool) :
    applyDeaths r (j :: ps) (true :: ss) = applyDeaths r ps ss := rfl

theorem applyDeaths_cons_false (r : List MonInstance) (j : Nat) (ps : List Nat)
    (ss : List Bool) :
    applyDeaths r (j :: ps) (false :: ss) =
      ((applyDeaths (listUpdate r j (fun m => { m with alive := false })) ps ss).1,
       (applyDeaths (listUpdate r j (fun m => { m with alive := false })) ps ss).2 + 1) := by
  rcases h : applyDeaths (listUpdate r j (fun m => { m with alive := false })) ps ss
    with ⟨r2, d⟩
  simp [applyDeaths, h]

theorem applyDeaths_length (s : List Bool) (r : List MonInstance) (p : List Nat) :
    ((applyDeaths r p s).1).length = r.length := by
  induction s generalizing p r with
  | nil => rw [applyDeaths_nil_s]
  | cons b ss ih =>
    cases p with
    | nil => rw [applyDeaths_nil_p]
    | cons j ps =>
      cases b with
      | true => rw [applyDeaths_cons_true]; exact ih r ps
      | false =>
        rw [applyDeaths_cons_false]
        simp only []
        rw [ih _ ps, listUpdate_length]

theorem applyDeaths_deaths_le (s : List Bool) (r : List MonInstance) (p : List Nat) :
    (applyDeaths r p s).2 ≤ p.length := by
  induction s generalizing p r with
  | nil => rw [applyDeaths_nil_s]; exact Nat.zero_le _
  | cons b ss ih =>
    cases p with
    | nil => rw [applyDeaths_nil_p]; exact Nat.zero_le _
    | cons j ps =>
      cases b with
      | true =>
        rw [applyDeaths_cons_true]
        exact le_trans (ih r ps) (Nat.le_succ _)
      | false =>
        rw [applyDeaths_cons_false]
        exact Nat.succ_le_succ (ih _ ps)

theorem applyDeaths_getD_cases (s : List Bool) (r : List MonInstance) (p : List Nat)
    (j : Nat) (d : MonInstance) :
    (applyDeaths r p s).1.getD j d = r.getD j d ∨
      (applyDeaths r p s).1.getD j d = { r.getD j d with alive := false } := by
  induction s generalizing p r with
  | nil => rw [applyDeaths_nil_s]; exact Or.inl rfl
  | cons b ss ih =>
    cases p with
    | nil => rw [applyDeaths_nil_p]; exact Or.inl rfl
    | cons q ps =>
      cases b with
      | true => rw [applyDeaths_cons_true]; exact ih r ps
      | false =>
        rw [applyDeaths_cons_false]
        simp only []
        rcases ih (listUpdate r q (fun m => { m with alive := false })) ps with h | h <;>
          rw [h] <;> by_cases hq : j = q
        · subst hq
          by_cases hlen : j < r.length
          · rw [getD_listUpdate_self _ _ _ _ hlen]; exact Or.inr rfl
          · rw [List.getD_eq_default _ _ (by rw [listUpdate_length]; exact Nat.le_of_not_lt hlen)]
            rw [List.getD_eq_default _ _ (Nat.le_of_not_lt hlen)]
            exact Or.inl rfl
        · rw [getD_listUpdate_ne _ _ _ _ _ hq]; exact Or.inl rfl
        · subst hq
          by_cases hlen : j < r.length
          · rw [getD_listUpdate_self _ _ _ _ hlen]; exact Or.inr rfl
          · rw [List.getD_eq_default _ _ (by rw [listUpdate_length]; exact Nat.le_of_not_lt hlen)]
            rw [List.getD_eq_default _ _ (Nat.le_of_not_lt hlen)]
            exact Or.inr rfl
        · rw [getD_listUpdate_ne _ _ _ _ _ hq]; exact Or.inr rfl

theorem applyDeaths_getD_killed (s : List Bool) (r : List MonInstance) (p : List Nat)
    (j : Nat) (d : MonInstance) (hjr : j < r.length) (hk : (false, j) ∈ s.zip p) :
    (applyDeaths r p s).1.getD j d = { r.getD j d with alive := false } := by
  induction s generalizing p r with
  | nil => simp at hk
  | cons b ss ih =>
    cases p with
    | nil => simp at hk
    | cons q ps =>
      rw [List.zip_cons_cons] at hk
      rcases List.mem_cons.mp hk with hhead | htail
      · have hb : false = b := congrArg Prod.fst hhead
        have hjq : j = q := congrArg Prod.snd hhead
        subst hjq
        subst hb
        rw [applyDeaths_cons_false]
        simp only []
        rcases applyDeaths_getD_cases ss
            (listUpdate r j (fun m => { m with alive := false })) ps j d with h | h <;>
          rw [h, getD_listUpdate_self _ _ _ _ hjr]
      · cases b with
        | true =>
          rw [applyDeaths_cons_true]
          exact ih r ps hjr htail
        | false =>
          rw [applyDeaths_cons_false]
          simp only []
          have hlen : j < (listUpdate r q (fun m => { m with alive := false })).length := by
            rw [listUpdate_length]; exact hjr
          rw [ih _ ps hlen htail]
          by_cases hq : j = q
          · subst hq
            rw [getD_listUpdate_self _ _ _ _ hjr]
          · rw [getD_listUpdate_ne _ _ _ _ _ hq]

theorem applyDeaths_getD_not_killed (s : List Bool) (r : List MonInstance)
    (p : List Nat) (j : Nat) (d : MonInstance) (hk : (false, j) ∉ s.zip p) :
    (applyDeaths r p s).1.getD j d = r.getD j d := by
  induction s generalizing p r with
  | nil => rw [applyDeaths_nil_s]
  | cons b ss ih =>
    cases p with
    | nil => rw [applyDeaths_nil_p]
    | cons q ps =>
      have htail : (false, j) ∉ ss.zip ps := by
        intro hmem
        exact hk (by simp [hmem])
      cases b with
      | true =>
        rw [applyDeaths_cons_true]
        exact ih r ps htail
      | false =>
        have hq : j ≠ q := by
          intro hc
          exact hk (by simp [hc])
        rw [applyDeaths_cons_false]
        simp only []
        rw [ih _ ps htail, getD_listUpdate_ne _ _ _ _ _ hq]

theorem runBattleCore_terminated (cap : Option Nat) (tidx : Nat) (o : Oracle) (s : EnvState)
    (hnode : s.node_idx < s.trainers.length) (htidx : tidx = s.node_idx) :
    ((runBattleCore cap tidx o s).2.2.1 = true) ↔
      ((o.win = true ∧ chainSuccessors s.trainers.length s.node_idx = []) ∨
       o.win = false ∨
       (runBattleCore cap tidx o s).1.roster.any (fun m => m.alive) = false) := by
  have hget : s.trainers[s.node_idx]? = some s.trainers[s.node_idx] :=
    List.getElem?_eq_getElem hnode
  subst htidx
  cases hw : o.win with
  | false =>
    simp [runBattleCore, hget, hw]
  | true =>
    by_cases hs : s.node_idx + 1 < s.trainers.length
    · have hd : decide (s.trainers.length ≤ s.node_idx + 1) = false := by
        simp only [decide_eq_false_iff_not]
        omega
      have hc : chainSuccessors s.trainers.length s.node_idx = [s.node_idx + 1] := by
        simp [chainSuccessors, hs]
      simp [runBattleCore, hget, hw, hd, hs, hc]
    · have hd : decide (s.trainers.length ≤ s.node_idx + 1) = true := by
        simp only [decide_eq_true_eq]
        omega
      have hc : chainSuccessors s.trainers.length s.node_idx = [] := by
        simp [chainSuccessors, hs]
      simp [runBattleCore, hget, hw, hd, hs, hc]

/-- C1: the spec promises that a `step` call never lets an exception
propagate — errors surface as terminal episode states with a metrics
payload.  The code breaks this promise: dispatching a battle with the
fight action (any action other than 1) in the DECISION phase reads
`current_trainer.level_cap`, an attribute `TrainerSpec` does not declare
(and on a win it would additionally read the never-initialised
`self.current_trainer_idx`), so the step raises `AttributeError` instead of
returning a step tuple.  Evaluated here at a concrete failing input: a
one-trainer gauntlet at its start node, DECISION phase, fight action. -/
theorem nuzlocke_c1_fight_dispatch_raises :
    step genW oracleW sDecision 0 =
      Except.error (PyErr.attributeError "level_cap") := rfl

/-- C2: a run terminates if and only if, after a battle dispatch (a
DECISION-phase action other than the rebuild action 1), either (a) the
battle was won and the current node has no successors, or (b) the battle
was lost, or (c) no roster member remains alive; no step sets the
terminated flag for any other reason.  Stated over `stepCore` (the step
body with the two uninitialised attribute reads supplied by the oracle,
tied to the chain position the graph stores for the current node), since
the faithful dispatch raises before reaching this logic (see C1). -/
theorem nuzlocke_c2_terminal_exclusivity (g : MovesetGen) (o : Oracle)
    (s : EnvState) (a : Nat)
    (hnode : s.node_idx < s.trainers.length) (htidx : o.tidx = s.node_idx) :
    ((stepCore g o s a).2.2.1 = true) ↔
      (s.phase = PHASE_DECISION ∧ a ≠ 1 ∧
        ((o.win = true ∧ chainSuccessors s.trainers.length s.node_idx = []) ∨
         o.win = false ∨
         (stepCore g o s a).1.roster.any (fun m => m.alive) = false)) := by
  by_cases h1 : s.phase = PHASE_SELECT_STARTER
  · simp [stepCore, h1, PHASE_SELECT_STARTER, PHASE_STRATEGIST, PHASE_DECISION,
      PHASE_BUILD_SPECIES, PHASE_BUILD_MOVE, PHASE_BUILD_ITEM]
  by_cases h2 : s.phase = PHASE_STRATEGIST
  · simp [stepCore, h1, h2, PHASE_SELECT_STARTER, PHASE_STRATEGIST, PHASE_DECISION,
      PHASE_BUILD_SPECIES, PHASE_BUILD_MOVE, PHASE_BUILD_ITEM]
  by_cases h3 : s.phase = PHASE_DECISION
  · by_cases ha : a = 1
    · subst ha
      simp [stepCore, h1, h2, h3, PHASE_SELECT_STARTER, PHASE_STRATEGIST, PHASE_DECISION,
        PHASE_BUILD_SPECIES, PHASE_BUILD_MOVE, PHASE_BUILD_ITEM]
    · have hcore := runBattleCore_terminated o.cap o.tidx o s hnode htidx
      have hstep : stepCore g o s a = runBattleCore o.cap o.tidx o s := by
        simp [stepCore, h1, h2, h3, ha, PHASE_SELECT_STARTER, PHASE_STRATEGIST,
          PHASE_DECISION]
      rw [hstep, hcore]
      simp [h3, ha]
  by_cases h4 : s.phase = PHASE_BUILD_SPECIES
  · have hterm : (stepCore g o s a).2.2.1 = false := by
      simp only [stepCore]
      simp [h1, h2, h3, h4, PHASE_SELECT_STARTER, PHASE_STRATEGIST, PHASE_DECISION,
        PHASE_BUILD_SPECIES, PHASE_BUILD_MOVE, PHASE_BUILD_ITEM]
      split
      · split <;> rfl
      · rfl
    simp [hterm, h3, h4, PHASE_BUILD_SPECIES, PHASE_DECISION]
  by_cases h5 : s.phase = PHASE_BUILD_MOVE
  · have hterm : (stepCore g o s a).2.2.1 = false := by
      simp only [stepCore]
      simp [h1, h2, h3, h4, h5, PHASE_SELECT_STARTER, PHASE_STRATEGIST, PHASE_DECISION,
        PHASE_BUILD_SPECIES, PHASE_BUILD_MOVE, PHASE_BUILD_ITEM]
      split
      · split <;> rfl
      · rfl
    simp [hterm, h3, h5, PHASE_BUILD_MOVE, PHASE_DECISION]
  by_cases h6 : s.phase = PHASE_BUILD_ITEM
  · have hterm : (stepCore g o s a).2.2.1 = false := by
      simp only [stepCore]
      simp [h1, h2, h3, h4, h5, h6, PHASE_SELECT_STARTER, PHASE_STRATEGIST, PHASE_DECISION,
        PHASE_BUILD_SPECIES, PHASE_BUILD_MOVE, PHASE_BUILD_ITEM]
      split <;> rfl
    simp [hterm, h3, h6, PHASE_BUILD_ITEM, PHASE_DECISION]
  · have hterm : (stepCore g o s a).2.2.1 = false := by
      simp only [stepCore]
      simp [h1, h2, h3, h4, h5, h6]
    simp [hterm, h3]

/-- Witness for C2: the terminal-exclusivity biconditional instantiated at
a concrete one-trainer state in the DECISION phase with the fight action. -/
theorem nuzlocke_c2_witness :
    sDecision.node_idx < sDecision.trainers.length ∧
    oracleW.tidx = sDecision.node_idx ∧
    (((stepCore genW oracleW sDecision 0).2.2.1 = true) ↔
      (sDecision.phase = PHASE_DECISION ∧ (0 : Nat) ≠ 1 ∧
        ((oracleW.win = true ∧
            chainSuccessors sDecision.trainers.length sDecision.node_idx = []) ∨
         oracleW.win = false ∨
         (stepCore genW oracleW sDecision 0).1.roster.any
           (fun m => m.alive) = false))) :=
  ⟨by decide, by decide,
    nuzlocke_c2_terminal_exclusivity genW oracleW sDecision 0 (by decide) (by decide)⟩

/-- C4: applying a survivors vector (nuzlocke_env.py lines 319-325) applies
exactly the battle outcome and nothing else: a party position paired with a
`false` survivor flag has its instance's alive flag cleared (and no other
field touched), while every roster instance not paired with a `false` flag
is left entirely unchanged; the roster's length is preserved.  A pair
`(survived, index)` of the loop is an element of `survivors.zip party`,
matching the source's `enumerate(survivors)` guarded by `i < len(party)`. -/
theorem nuzlocke_c4_death_propagation (r : List MonInstance) (p : List Nat)
    (s : List Bool) (j : Nat) (hjr : j < r.length) :
    ((false, j) ∈ s.zip p →
       (applyDeaths r p s).1.getD j dummyMon =
         { r.getD j dummyMon with alive := false }) ∧
    ((false, j) ∉ s.zip p →
       (applyDeaths r p s).1.getD j dummyMon = r.getD j dummyMon) ∧
    (applyDeaths r p s).1.length = r.length :=
  ⟨fun hk => applyDeaths_getD_killed s r p j dummyMon hjr hk,
   fun hk => applyDeaths_getD_not_killed s r p j dummyMon hk,
   applyDeaths_length s r p⟩

/-- Witness for C4: survivors `[true, false, true]` on a three-member party
flip exactly the second member from alive to dead, leaving the first and
third untouched. -/
theorem nuzlocke_c4_witness :
    (applyDeaths rosterThree [0, 1, 2] [true, false, true]).1.getD 1 dummyMon =
      { monStarter with alive := false } ∧
    (applyDeaths rosterThree [0, 1, 2] [true, false, true]).1.getD 0 dummyMon =
      monLvl4 ∧
    (applyDeaths rosterThree [0, 1, 2] [true, false, true]).1.getD 2 dummyMon =
      monThird := by
  refine ⟨?_, ?_, ?_⟩
  · exact ((nuzlocke_c4_death_propagation rosterThree [0, 1, 2] [true, false, true]
      1 (by decide)).1 (by decide)).trans (by decide)
  · exact ((nuzlocke_c4_death_propagation rosterThree [0, 1, 2] [true, false, true]
      0 (by decide)).2.1 (by decide)).trans (by decide)
  · exact ((nuzlocke_c4_death_propagation rosterThree [0, 1, 2] [true, false, true]
      2 (by decide)).2.1 (by decide)).trans (by decide)

theorem runBattleCore_roster (cap : Option Nat) (tidx : Nat) (o : Oracle)
    (s : EnvState) (tr : TrainerSpec) (hget : s.trainers[s.node_idx]? = some tr) :
    (runBattleCore cap tidx o s).1.roster =
      (if o.win = true then
        (applyDeaths (ratchet s.roster s.party (targetLevel cap tr.team))
          s.party o.survivors).1 ++ o.captured
      else
        (applyDeaths (ratchet s.roster s.party (targetLevel cap tr.team))
          s.party o.survivors).1) := by
  cases hw : o.win <;> by_cases hs : s.node_idx + 1 < s.trainers.length <;>
    simp [runBattleCore, hget, hw, hs]

theorem getD_applyDeaths_level (ss : List Bool) (r : List MonInstance) (p : List Nat)
    (i : Nat) (d : MonInstance) :
    ((applyDeaths r p ss).1.getD i d).spec.level = (r.getD i d).spec.level := by
  rcases applyDeaths_getD_cases ss r p i d with h | h <;> rw [h]

theorem stepCore_level_mono (g : MovesetGen) (o : Oracle) (s : EnvState) (a i : Nat) :
    (s.roster.getD i dummyMon).spec.level ≤
      ((stepCore g o s a).1.roster.getD i dummyMon).spec.level := by
  by_cases h1 : s.phase = PHASE_SELECT_STARTER
  · have hro : (stepCore g o s a).1.roster = s.roster ++ [o.starter] := by
      simp [stepCore, h1]
    rw [hro]
    by_cases hi : i < s.roster.length
    · rw [List.getD_append _ _ _ _ hi]
    · rw [List.getD_eq_default _ _ (le_of_not_lt hi)]
      exact Nat.zero_le _
  by_cases h2 : s.phase = PHASE_STRATEGIST
  · have hro : (stepCore g o s a).1.roster = s.roster := by
      simp [stepCore, h1, h2, PHASE_SELECT_STARTER, PHASE_STRATEGIST]
    rw [hro]
  by_cases h3 : s.phase = PHASE_DECISION
  · by_cases ha : a = 1
    · have hro : (stepCore g o s a).1.roster = s.roster := by
        simp [stepCore, h1, h2, h3, ha, PHASE_SELECT_STARTER, PHASE_STRATEGIST,
          PHASE_DECISION]
      rw [hro]
    · have hstep : stepCore g o s a = runBattleCore o.cap o.tidx o s := by
        simp [stepCore, h1, h2, h3, ha, PHASE_SELECT_STARTER, PHASE_STRATEGIST,
          PHASE_DECISION]
      rw [hstep]
      cases hget : s.trainers[s.node_idx]? with
      | none =>
        have hro : (runBattleCore o.cap o.tidx o s).1.roster = s.roster := by
          simp [runBattleCore, hget]
        rw [hro]
      | some tr =>
        rw [runBattleCore_roster o.cap o.tidx o s tr hget]
        have hm : (s.roster.getD i dummyMon).spec.level ≤
            ((applyDeaths (ratchet s.roster s.party (targetLevel o.cap tr.team))
              s.party o.survivors).1.getD i dummyMon).spec.level := by
          rw [getD_applyDeaths_level]
          exact getD_ratchet_level_ge _ _ _ _ _
        cases hw : o.win with
        | true =>
          simp only [reduceIte]
          by_cases hi : i < s.roster.length
          · have hlen : i < (applyDeaths
                (ratchet s.roster s.party (targetLevel o.cap tr.team))
                s.party o.survivors).1.length := by
              rw [applyDeaths_length, ratchet_length]
              exact hi
            rw [List.getD_append _ _ _ _ hlen]
            exact hm
          · rw [List.getD_eq_default _ _ (le_of_not_lt hi)]
            exact Nat.zero_le _
        | false =>
          simp only [Bool.false_eq_true, reduceIte]
          exact hm
  by_cases h4 : s.phase = PHASE_BUILD_SPECIES
  · have hro : (stepCore g o s a).1.roster = s.roster := by
      simp only [stepCore]
      simp [h1, h2, h3, h4, PHASE_SELECT_STARTER, PHASE_STRATEGIST, PHASE_DECISION,
        PHASE_BUILD_SPECIES]
      split
      · split <;> rfl
      · rfl
    rw [hro]
  by_cases h5 : s.phase = PHASE_BUILD_MOVE
  · have hro : (stepCore g o s a).1.roster = s.roster := by
      simp only [stepCore]
      simp [h1, h2, h3, h4, h5, PHASE_SELECT_STARTER, PHASE_STRATEGIST, PHASE_DECISION,
        PHASE_BUILD_SPECIES, PHASE_BUILD_MOVE]
      split
      · split <;> rfl
      · rfl
    rw [hro]
  by_cases h6 : s.phase = PHASE_BUILD_ITEM
  · cases hbm : s.build_current_mon with
    | none =>
      have hro : (stepCore g o s a).1.roster = s.roster := by
        simp only [stepCore]
        simp [h1, h2, h3, h4, h5, h6, hbm, PHASE_SELECT_STARTER, PHASE_STRATEGIST,
          PHASE_DECISION, PHASE_BUILD_SPECIES, PHASE_BUILD_MOVE, PHASE_BUILD_ITEM]
        split <;> rfl
      rw [hro]
    | some j =>
      have hro : (stepCore g o s a).1.roster =
          listUpdate s.roster j
            (fun m => { m with spec := { m.spec with moves := s.build_current_moves,
                                                     item := none } }) := by
        simp only [stepCore]
        simp [h1, h2, h3, h4, h5, h6, hbm, PHASE_SELECT_STARTER, PHASE_STRATEGIST,
          PHASE_DECISION, PHASE_BUILD_SPECIES, PHASE_BUILD_MOVE, PHASE_BUILD_ITEM]
        split <;> rfl
      rw [hro]
      by_cases hij : i = j
      · subst hij
        by_cases hi : i < s.roster.length
        · rw [getD_listUpdate_self _ _ _ _ hi]
        · rw [List.getD_eq_default _ _ (le_of_not_lt hi),
            List.getD_eq_default _ _ (by rw [listUpdate_length]; exact le_of_not_lt hi)]
      · rw [getD_listUpdate_ne _ _ _ _ _ hij]
  · have hro : (stepCore g o s a).1.roster = s.roster := by
      simp [stepCore, h1, h2, h3, h4, h5, h6]
    rw [hro]

/-- C3 counterexample: the claim says a battle dispatch raises each party
member's level to `max(current_level, node_level_cap)`.  With a level cap of
3 and a party member at level 4, the code raises the member to 5 (the
target is clamped to at least 5, nuzlocke_env.py line 309), not to
`max(4, 3) = 4`. -/
theorem nuzlocke_c3_counterexample :
    ((runBattleCore (some 3) 0 oracleW sDecision).1.roster.getD 0 dummyMon).spec.level = 5 ∧
    (sDecision.roster.getD 0 dummyMon).spec.level = 4 ∧
    max ((sDecision.roster.getD 0 dummyMon).spec.level) 3 = 4 ∧
    ((runBattleCore (some 3) 0 oracleW sDecision).1.roster.getD 0 dummyMon).spec.level ≠
      max ((sDecision.roster.getD 0 dummyMon).spec.level) 3 :=
  ⟨by decide, by decide, by decide, by decide⟩

/-- C3 (amended): on a battle dispatch each party member's level is raised
to `max(current_level, t)` where the target `t` is `max(5, node_level_cap)`
for a nonzero cap (the opposing team's maximum level, clamped to at least
5, when the cap is absent or zero) — and levels are never lowered: every
step of the machine leaves every roster instance's level no smaller than
before (levels are monotonically non-decreasing across the run).  The
ratchet is lines 302-313 of nuzlocke_env.py; monotonicity is stated over
`stepCore` since the faithful dispatch raises before the ratchet runs (see
C1). -/
theorem nuzlocke_c3_ratchet_level_scaling (c : Nat) (team : List PokemonSpec)
    (r : List MonInstance) (p : List Nat) (t : Nat) (d : MonInstance) (j : Nat)
    (hc : c ≠ 0) (hjr : j < r.length) (hj : j ∈ p) :
    targetLevel (some c) team = max 5 c ∧
    ((ratchet r p t).getD j d).spec.level = max (r.getD j d).spec.level t ∧
    ∀ (g : MovesetGen) (o : Oracle) (s : EnvState) (a i : Nat),
      (s.roster.getD i dummyMon).spec.level ≤
        ((stepCore g o s a).1.roster.getD i dummyMon).spec.level := by
  refine ⟨?_, ?_, fun g o s a i => stepCore_level_mono g o s a i⟩
  · simp [targetLevel, hc]
  · rw [getD_ratchet_mem p r t d j hjr hj]

/-- Witness for C3: the amended ratchet statement instantiated at a level-9
cap over a one-member party at level 4 (raised to `max(4, max(5, 9)) = 9`),
and level monotonicity at a concrete step. -/
theorem nuzlocke_c3_witness :
    targetLevel (some 9) [] = max 5 9 ∧
    ((ratchet [monLvl4] [0] 12).getD 0 dummyMon).spec.level =
      max ((([monLvl4] : List MonInstance).getD 0 dummyMon).spec.level) 12 ∧
    (sDecision.roster.getD 0 dummyMon).spec.level ≤
      ((stepCore genW oracleW sDecision 0).1.roster.getD 0 dummyMon).spec.level := by
  obtain ⟨hA, hB, hC⟩ := nuzlocke_c3_ratchet_level_scaling 9 [] [monLvl4] [0] 12
    dummyMon 0 (by decide) (by decide) (by decide)
  exact ⟨hA, hB, hC genW oracleW sDecision 0 0⟩

theorem runBattleCore_rebuild (cap : Option Nat) (tidx : Nat) (o : Oracle)
    (sb : EnvState) (tr : TrainerSpec)
    (hget : sb.trainers[sb.node_idx]? = some tr) :
    (runBattleCore cap tidx o sb).1.rebuild_count =
      if o.win = true then 0 else sb.rebuild_count := by
  cases hw : o.win <;> by_cases hs : sb.node_idx + 1 < sb.trainers.length <;>
    simp [runBattleCore, hget, hw, hs]

/-- C5: the rebuild (indecision) penalty is charged only on the second and
subsequent consecutive rebuild actions: a rebuild with a zero counter yields
reward 0, a rebuild with a positive counter yields the strictly negative
`rebuildPenalty` (-1/2), every rebuild increments the counter, `reset`
zeroes it, and a won battle zeroes it (the reset-on-win sits in the battle
body analysed as `runBattleCore`, see C1). -/
theorem nuzlocke_c5_rebuild_penalty (g : MovesetGen) (o : Oracle) (s sb : EnvState)
    (tr : TrainerSpec) (hphase : s.phase = PHASE_DECISION)
    (hget : sb.trainers[sb.node_idx]? = some tr) (hwin : o.win = true) :
    (s.rebuild_count = 0 → (stepCore g o s 1).2.1 = 0) ∧
    (0 < s.rebuild_count → (stepCore g o s 1).2.1 = rebuildPenalty) ∧
    ((stepCore g o s 1).1.rebuild_count = s.rebuild_count + 1) ∧
    rebuildPenalty < 0 ∧
    (reset s).rebuild_count = 0 ∧
    (runBattleCore o.cap o.tidx o sb).1.rebuild_count = 0 := by
  have hred : stepCore g o s 1 =
      ({ s with rebuild_count := s.rebuild_count + 1,
                phase := PHASE_BUILD_SPECIES,
                current_party_slot := 0,
                party := [] },
       if s.rebuild_count > 0 then rebuildPenalty else 0, false, false) := by
    simp [stepCore, hphase, PHASE_SELECT_STARTER, PHASE_STRATEGIST, PHASE_DECISION]
  refine ⟨?_, ?_, ?_, by norm_num [rebuildPenalty], rfl, ?_⟩
  · intro h0
    rw [hred]
    simp [h0]
  · intro h0
    rw [hred]
    simp [h0]
  · rw [hred]
  · rw [runBattleCore_rebuild o.cap o.tidx o sb tr hget, if_pos hwin]

/-- C6: the fixed win reward (+1) and loss reward (-1) are equal in
magnitude and opposite in sign, six times the per-death penalty (0.1) is
strictly below the win reward, and a won battle with at most six party
members and at least one roster member left alive nets a strictly positive
reward (reward composition of nuzlocke_env.py lines 327-359, analysed as
`runBattleCore`, see C1). -/
theorem nuzlocke_c6_reward_symmetry (cap : Option Nat) (tidx : Nat) (o : Oracle) (s : EnvState)
    (tr : TrainerSpec) (hget : s.trainers[s.node_idx]? = some tr)
    (hwin : o.win = true) (hparty : s.party.length ≤ 6)
    (halive : (runBattleCore cap tidx o s).1.roster.any (fun m => m.alive) = true) :
    winReward = -lossReward ∧
    6 * deathPenalty < winReward ∧
    0 < (runBattleCore cap tidx o s).2.1 := by
  refine ⟨by norm_num [winReward, lossReward], by norm_num [deathPenalty, winReward], ?_⟩
  have hd : ((applyDeaths (ratchet s.roster s.party (targetLevel cap tr.team))
      s.party o.survivors).2 : ℚ) ≤ 6 := by
    have := le_trans (applyDeaths_deaths_le o.survivors
      (ratchet s.roster s.party (targetLevel cap tr.team)) s.party) hparty
    exact_mod_cast this
  have hnw : ¬ (∀ x ∈ (applyDeaths (ratchet s.roster s.party (targetLevel cap tr.team))
      s.party o.survivors).1 ++ o.captured, x.alive = false) := by
    rw [runBattleCore_roster cap tidx o s tr hget] at halive
    rw [if_pos hwin] at halive
    rcases List.any_eq_true.mp halive with ⟨x, hx, hal⟩
    intro hall
    have := hall x hx
    simp [this] at hal
  have hnw2 : ¬ ((∀ x ∈ (applyDeaths (ratchet s.roster s.party (targetLevel cap tr.team))
      s.party o.survivors).1, x.alive = false) ∧ (∀ x ∈ o.captured, x.alive = false)) := by
    intro hc
    exact hnw (List.forall_mem_append.mpr hc)
  by_cases hs : s.node_idx + 1 < s.trainers.length <;>
    by_cases hexh : s.trainers.length ≤ tidx + 1 <;>
    simp [runBattleCore, hget, hwin, hs, hexh, hnw2, winReward, victoryBonus,
      deathPenalty] <;>
    linarith

/-- Witness for C5: at a one-trainer DECISION state, the first rebuild is
free, the second is penalised, and the win path of the battle body zeroes
the counter. -/
theorem nuzlocke_c5_witness :
    (stepCore genW oracleW sDecision 1).2.1 = 0 ∧
    (stepCore genW oracleW { sDecision with rebuild_count := 1 } 1).2.1 =
      rebuildPenalty ∧
    rebuildPenalty < 0 ∧
    (reset sDecision).rebuild_count = 0 ∧
    (runBattleCore oracleW.cap oracleW.tidx oracleW sDecision).1.rebuild_count = 0 := by
  obtain ⟨hA, _, _, hD, hE, hF⟩ := nuzlocke_c5_rebuild_penalty genW oracleW
    sDecision sDecision trainerW rfl (by decide) rfl
  obtain ⟨_, hB2, _, _, _, _⟩ := nuzlocke_c5_rebuild_penalty genW oracleW
    { sDecision with rebuild_count := 1 } sDecision trainerW rfl (by decide) rfl
  exact ⟨hA rfl, hB2 (by decide), hD, hE, hF⟩

/-- Witness for C6: the reward relations instantiated at a winning battle
over a one-member party with a surviving roster. -/
theorem nuzlocke_c6_witness :
    winReward = -lossReward ∧
    6 * deathPenalty < winReward ∧
    0 < (runBattleCore oracleW.cap 0 oracleW sDecision).2.1 :=
  nuzlocke_c6_reward_symmetry oracleW.cap 0 oracleW sDecision trainerW
    (by decide) rfl (by decide) (by decide)

/-- C7 counterexample: in a BUILD_MOVE state with a member in progress and
zero accumulated moves, the only unmasked action 0 is a no-op: nothing is
appended, no filler move is assigned, the member is not finalised (the
party stays empty) and the phase stays BUILD_MOVE — contradicting the
claimed guaranteed-filler recovery path. -/
theorem nuzlocke_c7_counterexample :
    stepCore genW oracleW sBuildMove 0 = (sBuildMove, 0, false, false) ∧
    sBuildMove.phase = PHASE_BUILD_MOVE ∧
    sBuildMove.party = [] ∧
    sBuildMove.build_current_moves = [] ∧
    genW.get_move_name 0 = none :=
  ⟨rfl, rfl, rfl, rfl, rfl⟩

/-- C7 (amended): if zero moves can be chosen for the member in progress
(an empty learnset leaves only the reserved action 0 unmasked),
`get_move_name 0` returns `None` and the step is a pure no-op: no filler
move is assigned, the member is not finalised, and the state — phase
BUILD_MOVE included — is returned unchanged with zero reward, so the build
does not progress past that member. -/
theorem nuzlocke_c7_reserved_action_noop (g : MovesetGen) (o : Oracle)
    (s : EnvState) (hphase : s.phase = PHASE_BUILD_MOVE) :
    g.get_move_name 0 = none ∧
    stepCore g o s 0 = (s, 0, false, false) := by
  refine ⟨rfl, ?_⟩
  simp [stepCore, hphase, PHASE_SELECT_STARTER, PHASE_STRATEGIST, PHASE_DECISION,
    PHASE_BUILD_SPECIES, PHASE_BUILD_MOVE, MovesetGen.get_move_name]

/-- Witness for C7: the no-op at a concrete BUILD_MOVE state with one move
already accumulated. -/
theorem nuzlocke_c7_witness :
    genW.get_move_name 0 = none ∧
    stepCore genW oracleW { sBuildMove with build_current_moves := ["growl"] } 0 =
      ({ sBuildMove with build_current_moves := ["growl"] }, 0, false, false) :=
  nuzlocke_c7_reserved_action_noop genW oracleW
    { sBuildMove with build_current_moves := ["growl"] } rfl

/-- C8 counterexample: a BUILD_SPECIES state whose alive-and-unselected
pool is exhausted (the only roster member is dead, none selected, zero
slots filled).  The claim says such a build still returns control to the
DECISION phase; instead the step on the only maskable action (0) — and on
an out-of-range action — returns the very same state, phase BUILD_SPECIES:
the state is a fixpoint of every build action and the builder never exits. -/
theorem nuzlocke_c8_counterexample :
    (∀ m ∈ sExhausted.roster, m.alive = false) ∧
    stepCore genW oracleW sExhausted 0 =
      (sExhausted, invalidPickPenalty, false, false) ∧
    stepCore genW oracleW sExhausted 5 = (sExhausted, 0, false, false) ∧
    sExhausted.phase = PHASE_BUILD_SPECIES ∧
    PHASE_BUILD_SPECIES ≠ PHASE_DECISION :=
  ⟨by decide, rfl, rfl, rfl, by decide⟩

/-- C8 (amended): the builder returns control to the DECISION phase exactly
when the slot counter reaches 6 after a finalisation (BUILD_ITEM step);
when the alive-and-unselected pool is exhausted with fewer than six slots
filled, the environment instead stays in BUILD_SPECIES forever: every
action in such a state returns the state unchanged (in-range picks are all
invalid, out-of-range actions are no-ops). -/
theorem nuzlocke_c8_build_completion (g : MovesetGen) (o : Oracle)
    (s s2 : EnvState) (a a2 : Nat)
    (hbi : s.phase = PHASE_BUILD_ITEM)
    (hbs : s2.phase = PHASE_BUILD_SPECIES)
    (hpool : ∀ j, j < s2.roster.length → pickOk s2 j = false) :
    ((stepCore g o s a).1.phase =
       if s.current_party_slot + 1 ≥ 6 then PHASE_DECISION
       else PHASE_BUILD_SPECIES) ∧
    (stepCore g o s2 a2).1 = s2 ∧
    (stepCore g o s2 a2).1.phase = PHASE_BUILD_SPECIES := by
  have h2 : (stepCore g o s2 a2).1 = s2 := by
    by_cases ha2 : a2 < s2.roster.length
    · have hpk := hpool a2 ha2
      simp [stepCore, hbs, ha2, hpk, PHASE_SELECT_STARTER, PHASE_STRATEGIST,
        PHASE_DECISION, PHASE_BUILD_SPECIES]
    · simp [stepCore, hbs, ha2, PHASE_SELECT_STARTER, PHASE_STRATEGIST,
        PHASE_DECISION, PHASE_BUILD_SPECIES]
  refine ⟨?_, h2, by rw [h2]; exact hbs⟩
  by_cases hslot : s.current_party_slot + 1 ≥ 6 <;>
    cases hbm : s.build_current_mon <;>
    simp [stepCore, hbi, hbm, hslot, PHASE_SELECT_STARTER, PHASE_STRATEGIST,
      PHASE_DECISION, PHASE_BUILD_SPECIES, PHASE_BUILD_MOVE, PHASE_BUILD_ITEM]

/-- Witness for C8: finalising the sixth member hands control back to
DECISION, while the exhausted-pool state is returned unchanged. -/
theorem nuzlocke_c8_witness :
    ((stepCore genW oracleW sBuildItem 0).1.phase =
       if sBuildItem.current_party_slot + 1 ≥ 6 then PHASE_DECISION
       else PHASE_BUILD_SPECIES) ∧
    (stepCore genW oracleW sExhausted 3).1 = sExhausted ∧
    (stepCore genW oracleW sExhausted 3).1.phase = PHASE_BUILD_SPECIES :=
  nuzlocke_c8_build_completion genW oracleW sBuildItem sExhausted 0 3
    rfl rfl (by decide)

/-- C10 counterexample: the two invalid-pick recoveries are not the single
consistent choice the claim requires: in the exhausted-pool BUILD_SPECIES
state, the in-range pick of the dead roster member (action 0) is penalised
-1/100 while the out-of-range action 5 is a zero-reward no-op. -/
theorem nuzlocke_c10_counterexample :
    (stepCore genW oracleW sExhausted 0).2.1 = invalidPickPenalty ∧
    (stepCore genW oracleW sExhausted 5).2.1 = 0 ∧
    invalidPickPenalty ≠ 0 :=
  ⟨rfl, rfl, by norm_num [invalidPickPenalty]⟩

/-- C10 (amended): an invalid species pick — an in-range index whose
instance is dead or already selected, or an out-of-range index — never
substitutes another instance and never changes the state (party, phase and
member-in-progress included); the recovery is deterministic but not
uniform: in-range invalid picks yield the fixed penalty -1/100, while
out-of-range indices yield a zero-reward no-op. -/
theorem nuzlocke_c10_invalid_pick (g : MovesetGen) (o : Oracle) (s : EnvState)
    (a : Nat) (hphase : s.phase = PHASE_BUILD_SPECIES) :
    (a < s.roster.length → pickOk s a = false →
       stepCore g o s a = (s, invalidPickPenalty, false, false)) ∧
    (s.roster.length ≤ a → stepCore g o s a = (s, 0, false, false)) ∧
    invalidPickPenalty < 0 ∧
    invalidPickPenalty ≠ 0 := by
  refine ⟨?_, ?_, by norm_num [invalidPickPenalty], by norm_num [invalidPickPenalty]⟩
  · intro ha hpk
    simp [stepCore, hphase, ha, hpk, PHASE_SELECT_STARTER, PHASE_STRATEGIST,
      PHASE_DECISION, PHASE_BUILD_SPECIES]
  · intro ha
    simp [stepCore, hphase, Nat.not_lt.mpr ha, PHASE_SELECT_STARTER,
      PHASE_STRATEGIST, PHASE_DECISION, PHASE_BUILD_SPECIES]

/-- Witness for C10: the two recoveries instantiated in the exhausted-pool
state: in-range dead pick at action 0, out-of-range action 7. -/
theorem nuzlocke_c10_witness :
    stepCore genW oracleW sExhausted 0 =
      (sExhausted, invalidPickPenalty, false, false) ∧
    stepCore genW oracleW sExhausted 7 = (sExhausted, 0, false, false) ∧
    invalidPickPenalty < 0 := by
  obtain ⟨h1, _, h3, _⟩ := nuzlocke_c10_invalid_pick genW oracleW sExhausted 0 rfl
  obtain ⟨_, h2b, _, _⟩ := nuzlocke_c10_invalid_pick genW oracleW sExhausted 7 rfl
  exact ⟨h1 (by decide) (by decide), h2b (by decide), h3⟩

theorem pickOk_iff (s : EnvState) (a : Nat) :
    pickOk s a = true ↔
      ((s.roster.getD a dummyMon).alive = true ∧
       ∀ k ∈ s.party, s.roster.getD k dummyMon ≠ s.roster.getD a dummyMon) := by
  simp [pickOk, List.all_eq_true]

theorem EnvInv_reset (s : EnvState) : EnvInv (reset s) := by
  refine ⟨List.nodup_nil, ?_, ?_, ?_, ?_⟩
  · intro j hj
    simp [reset] at hj
  · simp [reset]
  · intro hph
    rcases hph with h | h | h <;>
      simp [reset, PHASE_SELECT_STARTER, PHASE_BUILD_SPECIES, PHASE_BUILD_MOVE,
        PHASE_BUILD_ITEM] at h
  · intro hph
    rcases hph with h | h <;>
      simp [reset, PHASE_SELECT_STARTER, PHASE_BUILD_MOVE, PHASE_BUILD_ITEM] at h

theorem EnvInv_party_ids (s : EnvState) (hInv : EnvInv s)
    (hid : (s.roster.map (fun m => m.id)).Nodup) :
    (s.party.map (fun j => (s.roster.getD j dummyMon).id)).Nodup := by
  obtain ⟨hnd, hbound, _, _, _⟩ := hInv
  refine hnd.map_on ?_
  intro j hj k hk heq
  by_contra hne
  have hne2 : (s.roster.map (fun m => m.id)).getD j (dummyMon.id) ≠
      (s.roster.map (fun m => m.id)).getD k (dummyMon.id) := by
    refine nodup_getD_ne _ _ j k hid ?_ ?_ hne
    · simpa using hbound j hj
    · simpa using hbound k hk
  rw [getD_map, getD_map] at hne2
  exact hne2 heq

theorem EnvInv_battle (cap : Option Nat) (tidx : Nat) (o : Oracle) (s : EnvState)
    (hDec : s.phase = PHASE_DECISION) (hInv : EnvInv s) :
    EnvInv (runBattleCore cap tidx o s).1 := by
  obtain ⟨hnd, hbound, hlen6, h4, h5⟩ := hInv
  cases hget : s.trainers[s.node_idx]? with
  | none =>
    have hps : (runBattleCore cap tidx o s).1 = s := by
      simp [runBattleCore, hget]
    rw [hps]
    exact ⟨hnd, hbound, hlen6, h4, h5⟩
  | some tr =>
    have hparty : (runBattleCore cap tidx o s).1.party = s.party := by
      cases hw : o.win <;> by_cases hs : s.node_idx + 1 < s.trainers.length <;>
        simp [runBattleCore, hget, hw, hs]
    have hphase : (runBattleCore cap tidx o s).1.phase = PHASE_STRATEGIST ∨
        (runBattleCore cap tidx o s).1.phase = PHASE_DECISION := by
      cases hw : o.win <;> by_cases hs : s.node_idx + 1 < s.trainers.length <;>
        simp [runBattleCore, hget, hw, hs, hDec]
    have hrlen : s.roster.length ≤ (runBattleCore cap tidx o s).1.roster.length := by
      rw [runBattleCore_roster cap tidx o s tr hget]
      cases hw : o.win <;>
        simp [hw, applyDeaths_length, ratchet_length]
    refine ⟨?_, ?_, ?_, ?_, ?_⟩
    · rw [hparty]; exact hnd
    · rw [hparty]
      intro j hj
      exact lt_of_lt_of_le (hbound j hj) hrlen
    · rw [hparty]; exact hlen6
    · intro hph
      rcases hphase with h | h <;> rw [h] at hph <;>
        rcases hph with h' | h' | h' <;>
        simp [PHASE_STRATEGIST, PHASE_DECISION, PHASE_BUILD_SPECIES,
          PHASE_BUILD_MOVE, PHASE_BUILD_ITEM] at h'
    · intro hph
      rcases hphase with h | h <;> rw [h] at hph <;>
        rcases hph with h' | h' <;>
        simp [PHASE_STRATEGIST, PHASE_DECISION, PHASE_BUILD_MOVE,
          PHASE_BUILD_ITEM] at h'

theorem stepCore_EnvInv (g : MovesetGen) (o : Oracle) (s : EnvState) (a : Nat)
    (hInv : EnvInv s) : EnvInv (stepCore g o s a).1 := by
  obtain ⟨hnd, hbound, hlen6, hslot, hbm⟩ := hInv
  by_cases h1 : s.phase = PHASE_SELECT_STARTER
  · have hps : (stepCore g o s a).1 =
        { s with roster := s.roster ++ [o.starter], phase := PHASE_STRATEGIST } := by
      simp [stepCore, h1]
    rw [hps]
    refine ⟨hnd, ?_, hlen6, ?_, ?_⟩
    · intro j hj
      have := hbound j hj
      simp only [List.length_append, List.length_cons, List.length_nil]
      omega
    · intro hph
      rcases hph with h | h | h <;>
        simp [PHASE_STRATEGIST, PHASE_BUILD_SPECIES, PHASE_BUILD_MOVE,
          PHASE_BUILD_ITEM] at h
    · intro hph
      rcases hph with h | h <;>
        simp [PHASE_STRATEGIST, PHASE_BUILD_MOVE, PHASE_BUILD_ITEM] at h
  by_cases h2 : s.phase = PHASE_STRATEGIST
  · have hps : (stepCore g o s a).1 = { s with phase := PHASE_DECISION } := by
      simp [stepCore, h1, h2, PHASE_SELECT_STARTER, PHASE_STRATEGIST]
    rw [hps]
    refine ⟨hnd, hbound, hlen6, ?_, ?_⟩
    · intro hph
      rcases hph with h | h | h <;>
        simp [PHASE_DECISION, PHASE_BUILD_SPECIES, PHASE_BUILD_MOVE,
          PHASE_BUILD_ITEM] at h
    · intro hph
      rcases hph with h | h <;>
        simp [PHASE_DECISION, PHASE_BUILD_MOVE, PHASE_BUILD_ITEM] at h
  by_cases h3 : s.phase = PHASE_DECISION
  · by_cases ha1 : a = 1
    · have hps : (stepCore g o s a).1 =
          { s with rebuild_count := s.rebuild_count + 1,
                   phase := PHASE_BUILD_SPECIES,
                   current_party_slot := 0, party := [] } := by
        simp [stepCore, h1, h2, h3, ha1, PHASE_SELECT_STARTER, PHASE_STRATEGIST,
          PHASE_DECISION]
      rw [hps]
      refine ⟨List.nodup_nil, ?_, by simp, ?_, ?_⟩
      · intro j hj
        simp at hj
      · intro _
        refine ⟨by simp, ?_⟩
        show (0 : Nat) ≤ 5
        omega
      · intro hph
        rcases hph with h | h <;>
          simp [PHASE_BUILD_SPECIES, PHASE_BUILD_MOVE, PHASE_BUILD_ITEM] at h
    · have hps : stepCore g o s a = runBattleCore o.cap o.tidx o s := by
        simp [stepCore, h1, h2, h3, ha1, PHASE_SELECT_STARTER, PHASE_STRATEGIST,
          PHASE_DECISION]
      rw [hps]
      exact EnvInv_battle o.cap o.tidx o s h3 ⟨hnd, hbound, hlen6, hslot, hbm⟩
  by_cases h4 : s.phase = PHASE_BUILD_SPECIES
  · by_cases ha : a < s.roster.length
    · by_cases hpk : pickOk s a = true
      · have hps : (stepCore g o s a).1 =
            { s with build_current_mon := some a, build_current_moves := [],
                     current_move_slot := 0, phase := PHASE_BUILD_MOVE } := by
          simp only [stepCore]
          simp [h1, h2, h3, h4, ha, hpk, PHASE_SELECT_STARTER, PHASE_STRATEGIST,
            PHASE_DECISION, PHASE_BUILD_SPECIES]
        rw [hps]
        refine ⟨hnd, hbound, hlen6, ?_, ?_⟩
        · intro _
          exact hslot (Or.inl h4)
        · intro _ j hj
          have haj : a = j := by
            simpa using hj
          subst haj
          refine ⟨ha, fun hmem => ?_⟩
          exact ((pickOk_iff s a).mp hpk).2 a hmem rfl
      · have hps : (stepCore g o s a).1 = s := by
          simp only [stepCore]
          simp [h1, h2, h3, h4, ha, hpk, PHASE_SELECT_STARTER, PHASE_STRATEGIST,
            PHASE_DECISION, PHASE_BUILD_SPECIES]
        rw [hps]
        exact ⟨hnd, hbound, hlen6, hslot, hbm⟩
    · have hps : (stepCore g o s a).1 = s := by
        simp only [stepCore]
        simp [h1, h2, h3, h4, ha, PHASE_SELECT_STARTER, PHASE_STRATEGIST,
          PHASE_DECISION, PHASE_BUILD_SPECIES]
      rw [hps]
      exact ⟨hnd, hbound, hlen6, hslot, hbm⟩
  by_cases h5 : s.phase = PHASE_BUILD_MOVE
  · cases hmv : g.get_move_name a with
    | none =>
      have hps : (stepCore g o s a).1 = s := by
        simp only [stepCore]
        simp [h1, h2, h3, h4, h5, hmv, PHASE_SELECT_STARTER, PHASE_STRATEGIST,
          PHASE_DECISION, PHASE_BUILD_SPECIES, PHASE_BUILD_MOVE]
      rw [hps]
      exact ⟨hnd, hbound, hlen6, hslot, hbm⟩
    | some mname =>
      cases hbm2 : s.build_current_mon with
      | none =>
        have hps : (stepCore g o s a).1 = s := by
          simp only [stepCore]
          simp [h1, h2, h3, h4, h5, hmv, hbm2, PHASE_SELECT_STARTER,
            PHASE_STRATEGIST, PHASE_DECISION, PHASE_BUILD_SPECIES, PHASE_BUILD_MOVE]
        rw [hps]
        exact ⟨hnd, hbound, hlen6, hslot, hbm⟩
      | some jm =>
        by_cases hm4 : s.current_move_slot + 1 ≥ 4
        · have hps : (stepCore g o s a).1 =
              { s with build_current_moves := s.build_current_moves ++ [mname],
                       current_move_slot := s.current_move_slot + 1,
                       phase := PHASE_BUILD_ITEM } := by
            simp only [stepCore]
            simp [h1, h2, h3, h4, h5, hmv, hbm2, hm4, PHASE_SELECT_STARTER,
              PHASE_STRATEGIST, PHASE_DECISION, PHASE_BUILD_SPECIES, PHASE_BUILD_MOVE]
          rw [hps]
          refine ⟨hnd, hbound, hlen6, ?_, ?_⟩
          · intro _
            exact hslot (Or.inr (Or.inl h5))
          · intro _ j hj
            exact hbm (Or.inl h5) j (by simpa using hj)
        · have hps : (stepCore g o s a).1 =
              { s with build_current_moves := s.build_current_moves ++ [mname],
                       current_move_slot := s.current_move_slot + 1 } := by
            simp only [stepCore]
            simp [h1, h2, h3, h4, h5, hmv, hbm2, hm4, PHASE_SELECT_STARTER,
              PHASE_STRATEGIST, PHASE_DECISION, PHASE_BUILD_SPECIES, PHASE_BUILD_MOVE]
          rw [hps]
          refine ⟨hnd, hbound, hlen6, ?_, ?_⟩
          · intro hph
            exact hslot hph
          · intro hph j hj
            exact hbm hph j (by simpa using hj)
  by_cases h6 : s.phase = PHASE_BUILD_ITEM
  · cases hbm2 : s.build_current_mon with
    | none =>
      by_cases hs6 : s.current_party_slot + 1 ≥ 6
      · have hps : (stepCore g o s a).1 =
            { s with current_party_slot := s.current_party_slot + 1,
                     phase := PHASE_DECISION } := by
          simp only [stepCore]
          simp [h1, h2, h3, h4, h5, h6, hbm2, hs6, PHASE_SELECT_STARTER,
            PHASE_STRATEGIST, PHASE_DECISION, PHASE_BUILD_SPECIES,
            PHASE_BUILD_MOVE, PHASE_BUILD_ITEM]
        rw [hps]
        refine ⟨hnd, hbound, hlen6, ?_, ?_⟩
        · intro hph
          rcases hph with h | h | h <;>
            simp [PHASE_DECISION, PHASE_BUILD_SPECIES, PHASE_BUILD_MOVE,
              PHASE_BUILD_ITEM] at h
        · intro hph
          rcases hph with h | h <;>
            simp [PHASE_DECISION, PHASE_BUILD_MOVE, PHASE_BUILD_ITEM] at h
      · have hps : (stepCore g o s a).1 =
            { s with current_party_slot := s.current_party_slot + 1,
                     phase := PHASE_BUILD_SPECIES } := by
          simp only [stepCore]
          simp [h1, h2, h3, h4, h5, h6, hbm2, hs6, PHASE_SELECT_STARTER,
            PHASE_STRATEGIST, PHASE_DECISION, PHASE_BUILD_SPECIES,
            PHASE_BUILD_MOVE, PHASE_BUILD_ITEM]
        rw [hps]
        have hsl := hslot (Or.inr (Or.inr h6))
        refine ⟨hnd, hbound, hlen6, ?_, ?_⟩
        · intro _
          refine ⟨le_trans hsl.1 (Nat.le_succ _), ?_⟩
          show s.current_party_slot + 1 ≤ 5
          omega
        · intro hph
          rcases hph with h | h <;>
            simp [PHASE_BUILD_SPECIES, PHASE_BUILD_MOVE, PHASE_BUILD_ITEM] at h
    | some jm =>
      have hbmj := hbm (Or.inr h6) jm hbm2
      have hsl := hslot (Or.inr (Or.inr h6))
      by_cases hs6 : s.current_party_slot + 1 ≥ 6
      · have hps : (stepCore g o s a).1 =
            { s with
                roster := listUpdate s.roster jm
                  (fun m => { m with spec := { m.spec with
                      moves := s.build_current_moves, item := none } }),
                party := s.party ++ [jm],
                current_party_slot := s.current_party_slot + 1,
                phase := PHASE_DECISION } := by
          simp only [stepCore]
          simp [h1, h2, h3, h4, h5, h6, hbm2, hs6, PHASE_SELECT_STARTER,
            PHASE_STRATEGIST, PHASE_DECISION, PHASE_BUILD_SPECIES,
            PHASE_BUILD_MOVE, PHASE_BUILD_ITEM]
        rw [hps]
        refine ⟨?_, ?_, ?_, ?_, ?_⟩
        · simp [List.nodup_append, hnd, hbmj.2]
        · intro k hk
          rw [listUpdate_length]
          rcases List.mem_append.mp hk with h | h
          · exact hbound k h
          · have : k = jm := by simpa using h
            subst this
            exact hbmj.1
        · show (s.party ++ [jm]).length ≤ 6
          have h1l := hsl.1
          have h2l := hsl.2
          simp only [List.length_append, List.length_cons, List.length_nil]
          omega
        · intro hph
          rcases hph with h | h | h <;>
            simp [PHASE_DECISION, PHASE_BUILD_SPECIES, PHASE_BUILD_MOVE,
              PHASE_BUILD_ITEM] at h
        · intro hph
          rcases hph with h | h <;>
            simp [PHASE_DECISION, PHASE_BUILD_MOVE, PHASE_BUILD_ITEM] at h
      · have hps : (stepCore g o s a).1 =
            { s with
                roster := listUpdate s.roster jm
                  (fun m => { m with spec := { m.spec with
                      moves := s.build_current_moves, item := none } }),
                party := s.party ++ [jm],
                current_party_slot := s.current_party_slot + 1,
                phase := PHASE_BUILD_SPECIES } := by
          simp only [stepCore]
          simp [h1, h2, h3, h4, h5, h6, hbm2, hs6, PHASE_SELECT_STARTER,
            PHASE_STRATEGIST, PHASE_DECISION, PHASE_BUILD_SPECIES,
            PHASE_BUILD_MOVE, PHASE_BUILD_ITEM]
        rw [hps]
        refine ⟨?_, ?_, ?_, ?_, ?_⟩
        · simp [List.nodup_append, hnd, hbmj.2]
        · intro k hk
          rw [listUpdate_length]
          rcases List.mem_append.mp hk with h | h
          · exact hbound k h
          · have : k = jm := by simpa using h
            subst this
            exact hbmj.1
        · show (s.party ++ [jm]).length ≤ 6
          have h1l := hsl.1
          have h2l := hsl.2
          simp only [List.length_append, List.length_cons, List.length_nil]
          omega
        · intro _
          constructor
          · show (s.party ++ [jm]).length ≤ s.current_party_slot + 1
            have h1l := hsl.1
            simp only [List.length_append, List.length_cons, List.length_nil]
            omega
          · show s.current_party_slot + 1 ≤ 5
            omega
        · intro hph
          rcases hph with h | h <;>
            simp [PHASE_BUILD_SPECIES, PHASE_BUILD_MOVE, PHASE_BUILD_ITEM] at h
  · have hps : (stepCore g o s a).1 = s := by
      simp [stepCore, h1, h2, h3, h4, h5, h6]
    rw [hps]
    exact ⟨hnd, hbound, hlen6, hslot, hbm⟩

/-- C9: builder validity.  For every step from a state satisfying the
builder invariant `EnvInv` (established at `reset`), the invariant is
preserved: the party holds at most 6 slots and its roster indices are
pairwise distinct, hence — whenever roster ids are distinct, as they are for
the uuid4-assigned ids — no two party slots reference the same instance id;
and a species pick is accepted (BUILD_SPECIES step moving to BUILD_MOVE)
only when the referenced roster instance is alive and structurally distinct
from every instance already in the in-progress party. -/
theorem nuzlocke_c9_no_dupe_party (g : MovesetGen) (o : Oracle) (s : EnvState)
    (a : Nat) (hInv : EnvInv s) :
    EnvInv (stepCore g o s a).1 ∧
    (stepCore g o s a).1.party.length ≤ 6 ∧
    (stepCore g o s a).1.party.Nodup ∧
    EnvInv (reset s) ∧
    ((s.roster.map (fun m => m.id)).Nodup →
      (s.party.map (fun j => (s.roster.getD j dummyMon).id)).Nodup) ∧
    (a < s.roster.length → s.phase = PHASE_BUILD_SPECIES →
      (stepCore g o s a).1.phase = PHASE_BUILD_MOVE →
      (s.roster.getD a dummyMon).alive = true ∧
      ∀ k ∈ s.party, s.roster.getD k dummyMon ≠ s.roster.getD a dummyMon) := by
  have hpost := stepCore_EnvInv g o s a hInv
  refine ⟨hpost, hpost.2.2.1, hpost.1, EnvInv_reset s, EnvInv_party_ids s hInv, ?_⟩
  intro ha hbs hbmov
  by_cases hpk : pickOk s a = true
  · exact (pickOk_iff s a).mp hpk
  · exfalso
    have hps : (stepCore g o s a).1 = s := by
      simp only [stepCore]
      simp [hbs, ha, hpk, PHASE_SELECT_STARTER, PHASE_STRATEGIST, PHASE_DECISION,
        PHASE_BUILD_SPECIES]
    rw [hps, hbs] at hbmov
    simp [PHASE_BUILD_SPECIES, PHASE_BUILD_MOVE] at hbmov

/-- Witness for C9: the invariant facts instantiated at the one-member
DECISION state. -/
theorem nuzlocke_c9_witness :
    EnvInv (stepCore genW oracleW sDecision 0).1 ∧
    (stepCore genW oracleW sDecision 0).1.party.length ≤ 6 ∧
    (stepCore genW oracleW sDecision 0).1.party.Nodup ∧
    EnvInv (reset sDecision) ∧
    ((sDecision.roster.map (fun m => m.id)).Nodup →
      (sDecision.party.map (fun j => (sDecision.roster.getD j dummyMon).id)).Nodup) ∧
    (0 < sDecision.roster.length → sDecision.phase = PHASE_BUILD_SPECIES →
      (stepCore genW oracleW sDecision 0).1.phase = PHASE_BUILD_MOVE →
      (sDecision.roster.getD 0 dummyMon).alive = true ∧
      ∀ k ∈ sDecision.party,
        sDecision.roster.getD k dummyMon ≠ sDecision.roster.getD 0 dummyMon) := by
  have hInvD : EnvInv sDecision := by
    refine ⟨by decide, by decide, by decide, ?_, ?_⟩
    · intro h
      rcases h with h | h | h <;>
        simp [sDecision, PHASE_DECISION, PHASE_BUILD_SPECIES, PHASE_BUILD_MOVE,
          PHASE_BUILD_ITEM] at h
    · intro h
      rcases h with h | h <;>
        simp [sDecision, PHASE_DECISION, PHASE_BUILD_MOVE, PHASE_BUILD_ITEM] at h
  exact nuzlocke_c9_no_dupe_party genW oracleW sDecision 0 hInvD
